import Mathlib

/-!
Shallow embedding of the Schemey core: `src/_builtins.py` (runtime values and
builtin procedures) and `src/lexer.py` (the maximal-munch tokenizer).

Python's dynamic typing is made explicit: every builtin returns
`Except PyError Value`, where `PyError` separates the component's own error
kind (`ProcedureError`) from raw Python exceptions (`TypeError`,
`ZeroDivisionError`, `StopIteration`, `AttributeError`) that escape a builtin
when no guard is in place.

The classes `Number`, `Boolean`, `String`, `Symbol`, `Pair`, `Nil` live in
`expressions.py`, which is not part of the sources under verification; their
field layout is modelled from the spec's data model (section 3):
`Number(value)`, `Boolean(value)`, `String(value)`, `Symbol(name)`,
`Pair(first, second)`, `Nil`.  A pair slot may also hold Python `None`
(`builtin_car` tests `pair.first is None`), embedded as the extra
constructor `pynone`.
-/

/-- The payload of a `.value` attribute: Python stores an int, a bool or a
str there depending on the class.  `Number(x)` keeps whatever `x` is, so the
payload type must cover all of them (e.g. the unary branch of `*` builds
`Number(args[0].value)` for an arbitrary argument). -/
inductive Dyn where
  | int (i : Int)
  | bool (b : Bool)
  | str (s : String)
deriving DecidableEq, Repr

/-- The runtime value taxonomy of `expressions.py`, plus `pynone` for the
Python `None` that the surrounding system stores in pair slots to mark the
empty list (`builtin_car` checks `pair.first is None`). -/
inductive Value where
  | number (v : Dyn)
  | boolean (b : Bool)
  | strv (s : String)
  | symbol (s : String)
  | pair (first second : Value)
  | nil
  | pynone
deriving DecidableEq, Repr

/-- Python errors that can leave a builtin.  `procedureError` is the
component's own error kind (`class ProcedureError(Exception)`); the others
are raw Python exceptions raised by the interpreter itself. -/
inductive PyError where
  | procedureError (msg : String)
  | typeError
  | zeroDivisionError
  | stopIteration
  | attributeError
deriving DecidableEq, Repr

/-- Attribute access `obj.value`.  Modelled from the spec: the classes of
`expressions.py` are not in the sources; the spec's data model gives a
`value` field exactly to `Number`, `Boolean` and `String` (`Symbol` has
`name`, `Pair` has `first`/`second`, `Nil` nothing), so `.value` on the
other variants is a raw `AttributeError`. -/
def getValue : Value → Except PyError Dyn
  | Value.number d => Except.ok d
  | Value.boolean b => Except.ok (Dyn.bool b)
  | Value.strv s => Except.ok (Dyn.str s)
  | _ => Except.error PyError.attributeError

/-- Python's numeric view of a `.value` payload: ints are themselves and
bools coerce (`True == 1`); strings are not numbers. -/
def numVal : Dyn → Option Int
  | Dyn.int i => some i
  | Dyn.bool b => some (if b then 1 else 0)
  | Dyn.str _ => none

/-- Python `a + b` on `.value` payloads: numeric addition (bools coerce),
string concatenation, `TypeError` on a mixed pair. -/
def pyAdd (a b : Dyn) : Except PyError Dyn :=
  match a, b with
  | Dyn.str s, Dyn.str t => Except.ok (Dyn.str (s ++ t))
  | _, _ =>
    match numVal a, numVal b with
    | some x, some y => Except.ok (Dyn.int (x + y))
    | _, _ => Except.error PyError.typeError

/-- Python `a - b`: numeric only. -/
def pySub (a b : Dyn) : Except PyError Dyn :=
  match numVal a, numVal b with
  | some x, some y => Except.ok (Dyn.int (x - y))
  | _, _ => Except.error PyError.typeError

/-- Python string repetition `s * n` (a nonpositive count gives `""`). -/
def strRepeat (s : String) (n : Int) : String :=
  String.join (List.replicate n.toNat s)

/-- Python `a * b`: numeric product, or string repetition when one side is a
string and the other numeric. -/
def pyMul (a b : Dyn) : Except PyError Dyn :=
  match a, b with
  | Dyn.str s, other =>
    match numVal other with
    | some n => Except.ok (Dyn.str (strRepeat s n))
    | none => Except.error PyError.typeError
  | other, Dyn.str s =>
    match numVal other with
    | some n => Except.ok (Dyn.str (strRepeat s n))
    | none => Except.error PyError.typeError
  | _, _ =>
    match numVal a, numVal b with
    | some x, some y => Except.ok (Dyn.int (x * y))
    | _, _ => Except.error PyError.typeError

/-- Python unary `+x` (the `lambda x: +x` of the `+` entry). -/
def pyPos (a : Dyn) : Except PyError Dyn :=
  match numVal a with
  | some x => Except.ok (Dyn.int x)
  | none => Except.error PyError.typeError

/-- Python unary `-x` (the `lambda x: -x` of the `-` entry). -/
def pyNeg (a : Dyn) : Except PyError Dyn :=
  match numVal a with
  | some x => Except.ok (Dyn.int (-x))
  | none => Except.error PyError.typeError

/-- Python `a // b`: floor division; bools coerce; `ZeroDivisionError` on a
zero divisor; `TypeError` when a side is a string. -/
def pyFloorDiv (a b : Dyn) : Except PyError Dyn :=
  match numVal a, numVal b with
  | some x, some y =>
    if y = 0 then Except.error PyError.zeroDivisionError
    else Except.ok (Dyn.int (Int.fdiv x y))
  | _, _ => Except.error PyError.typeError

/-- Python `a % b`: remainder with the divisor's sign (floored), matching
`Int.fmod`; `ZeroDivisionError` on a zero divisor. -/
def pyMod (a b : Dyn) : Except PyError Dyn :=
  match numVal a, numVal b with
  | some x, some y =>
    if y = 0 then Except.error PyError.zeroDivisionError
    else Except.ok (Dyn.int (Int.fmod x y))
  | _, _ => Except.error PyError.typeError

/-- Python `a == b` on `.value` payloads: never raises; numbers (and bools,
which coerce) compare numerically, strings compare as strings, a mixed pair
is `False`. -/
def pyEqB (a b : Dyn) : Bool :=
  match a, b with
  | Dyn.str s, Dyn.str t => s == t
  | _, _ =>
    match numVal a, numVal b with
    | some x, some y => x == y
    | _, _ => false

/-- Python `a == b` wrapped for `comp_op` (comparison operators share the
signature `Dyn → Dyn → Except PyError Bool`). -/
def pyEq (a b : Dyn) : Except PyError Bool := Except.ok (pyEqB a b)

/-- Python `a < b`: two strings compare lexicographically, numerics (bools
coerce) numerically, a mixed pair raises `TypeError`. -/
def pyLt (a b : Dyn) : Except PyError Bool :=
  match a, b with
  | Dyn.str s, Dyn.str t => Except.ok (decide (s < t))
  | _, _ =>
    match numVal a, numVal b with
    | some x, some y => Except.ok (decide (x < y))
    | _, _ => Except.error PyError.typeError

/-- Python `a > b`. -/
def pyGt (a b : Dyn) : Except PyError Bool :=
  match a, b with
  | Dyn.str s, Dyn.str t => Except.ok (decide (t < s))
  | _, _ =>
    match numVal a, numVal b with
    | some x, some y => Except.ok (decide (y < x))
    | _, _ => Except.error PyError.typeError

/-- Python `a <= b`. -/
def pyLe (a b : Dyn) : Except PyError Bool :=
  match a, b with
  | Dyn.str s, Dyn.str t => Except.ok (decide (s ≤ t))
  | _, _ =>
    match numVal a, numVal b with
    | some x, some y => Except.ok (decide (x ≤ y))
    | _, _ => Except.error PyError.typeError

/-- Python `a >= b`. -/
def pyGe (a b : Dyn) : Except PyError Bool :=
  match a, b with
  | Dyn.str s, Dyn.str t => Except.ok (decide (t ≤ s))
  | _, _ =>
    match numVal a, numVal b with
    | some x, some y => Except.ok (decide (y ≤ x))
    | _, _ => Except.error PyError.typeError

/-- `isinstance(v, Number)`. -/
def isNumber : Value → Bool
  | Value.number _ => true
  | _ => false

/-- `isinstance(v, Pair)`. -/
def isPair : Value → Bool
  | Value.pair _ _ => true
  | _ => false

/-- `check_type(expected_type, objs, msg)`: raises `ProcedureError(msg)`
when any object fails the `isinstance` test.  (The Python function also
wraps a single non-tuple argument in a list; call sites below pass the
already-wrapped list.) -/
def check_type (pred : Value → Bool) (objs : List Value) (msg : String) :
    Except PyError Unit :=
  if objs.any (fun o => !pred o) then Except.error (PyError.procedureError msg)
  else Except.ok ()

/-- `arith_op(op_func, unary_func)`: one argument takes the unchecked unary
branch `Number(unary_func(args[0].value))`; otherwise `check_type` guards
and the operator is left-folded over the `.value`s (`reduce`).  `reduce`
over an empty sequence is a raw Python `TypeError`. -/
def arith_op (op_func : Dyn → Dyn → Except PyError Dyn)
    (unary_func : Dyn → Except PyError Dyn) (args : List Value) :
    Except PyError Value :=
  match args with
  | [a] => do
    let v ← getValue a
    let u ← unary_func v
    Except.ok (Value.number u)
  | _ => do
    check_type isNumber args "Expected numbers only"
    let vals ← args.mapM getValue
    match vals with
    | [] => Except.error PyError.typeError
    | v :: rest => do
      let r ← rest.foldlM op_func v
      Except.ok (Value.number r)

/-- The loop of `comp_op`: `value` is the current left operand; each failing
adjacent pair returns `Boolean(False)` at once, an exhausted iterator
returns `Boolean(True)`. -/
def comp_loop (op_func : Dyn → Dyn → Except PyError Bool) :
    Value → List Value → Except PyError Value
  | _, [] => Except.ok (Value.boolean true)
  | value, element :: rest => do
    let x ← getValue value
    let y ← getValue element
    let b ← op_func x y
    if b then comp_loop op_func element rest
    else Except.ok (Value.boolean false)

/-- `comp_op(op_func)`: `next(it)` on an empty argument tuple raises a raw
`StopIteration`; otherwise the chained comparison loop runs.  No type check
is performed anywhere in this function. -/
def comp_op (op_func : Dyn → Dyn → Except PyError Bool) (args : List Value) :
    Except PyError Value :=
  match args with
  | [] => Except.error PyError.stopIteration
  | value :: rest => comp_loop op_func value rest

/-- The registered `+`: `arith_op(op.add, lambda x: +x)`. -/
def builtin_add (args : List Value) : Except PyError Value :=
  arith_op pyAdd pyPos args

/-- The registered `-`: `arith_op(op.sub, lambda x: -x)`. -/
def builtin_sub (args : List Value) : Except PyError Value :=
  arith_op pySub pyNeg args

/-- The registered `*`: `arith_op(op.mul, lambda x: x)`. -/
def builtin_mul (args : List Value) : Except PyError Value :=
  arith_op pyMul (fun x => Except.ok x) args

/-- The registered `=`: `comp_op(op.eq)`. -/
def builtin_eq_cmp (args : List Value) : Except PyError Value :=
  comp_op pyEq args

/-- The registered `>`: `comp_op(op.gt)`. -/
def builtin_gt_cmp (args : List Value) : Except PyError Value :=
  comp_op pyGt args

/-- The registered `<`: `comp_op(op.lt)`. -/
def builtin_lt_cmp (args : List Value) : Except PyError Value :=
  comp_op pyLt args

/-- The registered `>=`: `comp_op(op.ge)`. -/
def builtin_ge_cmp (args : List Value) : Except PyError Value :=
  comp_op pyGe args

/-- The registered `<=`: `comp_op(op.le)`. -/
def builtin_le_cmp (args : List Value) : Except PyError Value :=
  comp_op pyLe args

/-- `builtin_quotient(a, b) = Number(a.value // b.value)` — no guard of any
kind. -/
def builtin_quotient (a b : Value) : Except PyError Value := do
  let x ← getValue a
  let y ← getValue b
  let r ← pyFloorDiv x y
  Except.ok (Value.number r)

/-- `builtin_mod(a, b) = Number(a.value % b.value)` — no guard of any
kind. -/
def builtin_mod (a b : Value) : Except PyError Value := do
  let x ← getValue a
  let y ← getValue b
  let r ← pyMod x y
  Except.ok (Value.number r)

/-- `builtin_car(pair)`: type-check, then `pair.first is None` guard, then
return `pair.first`.  The fall-through match arm is unreachable once
`check_type` has passed (attribute access on a non-`Pair` would be a raw
`AttributeError`). -/
def builtin_car (p : Value) : Except PyError Value := do
  check_type isPair [p] "Expected pair or list."
  match p with
  | Value.pair first _ =>
    match first with
    | Value.pynone => Except.error (PyError.procedureError "attempted car on empty list")
    | _ => Except.ok first
  | _ => Except.error PyError.attributeError

/-- `builtin_cdr(pair)`: same guards as `builtin_car` (the emptiness test is
on `pair.first`, as in the source), but returns `pair.second`. -/
def builtin_cdr (p : Value) : Except PyError Value := do
  check_type isPair [p] "Expected pair or list."
  match p with
  | Value.pair first second =>
    match first with
    | Value.pynone => Except.error (PyError.procedureError "attempted cdr on empty list")
    | _ => Except.ok second
  | _ => Except.error PyError.attributeError

/-- `el == Boolean(b)`: equality against a concrete `Boolean`.  Modelled
from the spec: `__eq__` lives in the absent `expressions.py`; the spec
prescribes field-wise structural equality for `Boolean` values and no
cross-variant equality, so only a `Boolean` with the same payload
compares equal. -/
def eqBool (v : Value) (b : Bool) : Bool :=
  match v with
  | Value.boolean b2 => b2 == b
  | _ => false

/-- `builtin_and(*args)`: return the first argument `== Boolean(False)`,
else the last argument, else `Boolean(True)` for an empty tuple.  Never
raises. -/
def builtin_and (args : List Value) : Value :=
  match args.find? (fun el => eqBool el false) with
  | some el => el
  | none =>
    match args.getLast? with
    | some last => last
    | none => Value.boolean true

/-- `builtin_or(*args)`: return the first argument `== Boolean(True)`, else
the last argument, else `Boolean(False)` for an empty tuple. -/
def builtin_or (args : List Value) : Value :=
  match args.find? (fun el => eqBool el true) with
  | some el => el
  | none =>
    match args.getLast? with
    | some last => last
    | none => Value.boolean false

/-- A builtin `Procedure`: name and body, plus the declared arity.
Modelled from the spec: `get_number_of_params` lives in the absent
`utils.py`; the spec says arity is "derived from the procedure's declared
parameter shape at registration time: a fixed count, or a variadic
marker".  `argc = none` is the Python string `'positional'` that the
reflection returns for a `*args` signature; `some n` is a fixed count. -/
structure Procedure where
  name : String
  argc : Option Nat
  builtin_proc : List Value → Except PyError Value

/-- The message text of the arity error, exactly the `str.format` of the
source: `'Procedure "{}" expected {} argument(s). Got {} instead'`. -/
def arityMsg (name : String) (expected got : Nat) : String :=
  "Procedure \"" ++ name ++ "\" expected " ++ toString expected ++
    " argument(s). Got " ++ toString got ++ " instead"

/-- `Procedure.apply(*args)`: `if argc != 'positional' and argc != len(args)`
raise the arity `ProcedureError`, else call the body on the arguments. -/
def Procedure.apply (p : Procedure) (args : List Value) :
    Except PyError Value :=
  match p.argc with
  | some n =>
    if n ≠ args.length then
      Except.error (PyError.procedureError (arityMsg p.name n args.length))
    else p.builtin_proc args
  | none => p.builtin_proc args

/-- Bridge from a two-parameter Python function to the `*args` call
`self.builtin_proc(*args)`: a count other than 2 would be a raw Python
`TypeError` (unreachable behind the arity check, which sees `argc = 2`). -/
def listify2 (f : Value → Value → Except PyError Value)
    (args : List Value) : Except PyError Value :=
  match args with
  | [a, b] => f a b
  | _ => Except.error PyError.typeError

/-- The registered `quotient` entry: a fixed two-parameter function, so the
modelled `get_number_of_params` yields 2. -/
def quotient_proc : Procedure :=
  ⟨"quotient", some 2, listify2 builtin_quotient⟩

/-- The registered `modulo` entry. -/
def modulo_proc : Procedure :=
  ⟨"modulo", some 2, listify2 builtin_mod⟩

/-- The registered `=` entry: `comp_op` returns a `*args` closure, so the
modelled `get_number_of_params` yields the variadic marker. -/
def eq_proc : Procedure := ⟨"=", none, builtin_eq_cmp⟩

/-- The registered `>` entry. -/
def gt_proc : Procedure := ⟨">", none, builtin_gt_cmp⟩

/-- The registered `<` entry. -/
def lt_proc : Procedure := ⟨"<", none, builtin_lt_cmp⟩

/-- The registered `>=` entry. -/
def ge_proc : Procedure := ⟨">=", none, builtin_ge_cmp⟩

/-- The registered `<=` entry. -/
def le_proc : Procedure := ⟨"<=", none, builtin_le_cmp⟩



/-! ## The lexer (`src/lexer.py`)

The buffer is a `List Char`; the cursor is a `Nat` index.  `_get_char(pos)`
is `buf[pos]?` (the Python default-argument idiom `offset = pos or
self.pos` only differs when an explicit argument 0 is passed, and every
explicit call site passes a position ≥ 1).  The character-scanning loops
are written structurally over the yet-unread suffix `buf.drop pos`, so
every function computes by `rfl`/`decide`. -/

/-- `GARBAGE_CHARS = {' ', '\n', '\t', '\r'}`. -/
def garbage_chars : List Char := [' ', '\n', '\t', '\r']

/-- `ADDITIONAL_BUILTIN_CHARS = {'?', '!', '.'}`. -/
def additional_builtin_chars : List Char := ['?', '!', '.']

/-- The keys of `builtin_map`, in source order.  (`is_identifier` tests
membership of a one-character string in this key set.) -/
def builtin_names : List String :=
  ["eq?", "eqv?", "pair?", "zero?", "boolean?", "symbol?", "number?",
   "null?", "string?",
   "+", "-", "*", "quotient", "modulo",
   "=", ">", "<", ">=", "<=", "and", "or", "not",
   "list", "cons", "car", "cdr", "cadr", "caddr", "set-car!", "set-cdr!",
   "string-length"]

/-- `is_identifier(char)`: alphanumeric, or a (one-character) key of
`builtin_map`, or one of `?`, `!`, `.`.  (Python's `str.isalnum` and
`Char.isAlphanum` agree on the ASCII range, which is all the lexer's rules
distinguish.) -/
def is_identifier (c : Char) : Bool :=
  c.isAlphanum || builtin_names.contains (String.singleton c) ||
    additional_builtin_chars.contains c

/-- `TokenTypes`. -/
inductive TokenTypes where
  | BOOLEAN | STRING | NUMBER | IDENTIFIER | LPAREN | RPAREN | QUOTE
deriving DecidableEq, Repr

/-- A `Token`: type, text and start position. -/
structure Token where
  token_type : TokenTypes
  val : List Char
  pos : Nat
deriving DecidableEq, Repr

/-- The `Error` namedtuple: the position the lexer was on when the error
was detected. -/
structure LexError where
  pos : Nat
deriving DecidableEq, Repr

/-- What one `next_token()` call produces: `eof` is Python `None`, the
other two are the `Token` and `Error` objects. -/
inductive LexResult where
  | eof
  | token (t : Token)
  | error (e : LexError)
deriving DecidableEq, Repr

/-- `self._get_char(offset)` / `self.buffer[offset]` with `IndexError`
mapped to `None`. -/
def getc (buf : List Char) (pos : Nat) : Option Char := buf[pos]?

/-- Python pySlice `buffer[a:b]`. -/
def pySlice (buf : List Char) (a b : Nat) : List Char :=
  (buf.drop a).take (b - a)

/-- The loop of `_skip_whitespace`: advance while the current character
exists and is garbage. -/
def skip_ws_go : List Char → Nat → Nat
  | [], p => p
  | c :: rest, p =>
    if garbage_chars.contains c then skip_ws_go rest (p + 1) else p

/-- `Lexer._skip_whitespace`. -/
def skip_whitespace (buf : List Char) (pos : Nat) : Nat :=
  skip_ws_go (buf.drop pos) pos

/-- The inner loop of `_skip_comments`: advance while the current character
exists and is not a newline. -/
def skip_comment_go : List Char → Nat → Nat
  | [], p => p
  | c :: rest, p => if c = '\n' then p else skip_comment_go rest (p + 1)

/-- `Lexer._skip_comments`: only acts when the current character is `;`. -/
def skip_comments (buf : List Char) (pos : Nat) : Nat :=
  if getc buf pos = some ';' then skip_comment_go (buf.drop pos) pos else pos

/-- One test of the garbage-skipping loop guard of `next_token`:
`char in GARBAGE_CHARS or char == COMMENT_CHAR` (false for `None`). -/
def is_skippable : Option Char → Bool
  | none => false
  | some c => garbage_chars.contains c || c = ';'

/-- The garbage-skipping `while` loop of `next_token`, with explicit fuel.
Each true guard advances the cursor by at least one (proved below as
`skip_all_go_progress`), and a true guard needs `pos < buf.length`, so the
loop runs at most `buf.length` times; `skip_all` supplies fuel
`buf.length + 1`, which is never exhausted (`skip_all_go_fuel_spec`). -/
def skip_all_go (buf : List Char) : Nat → Nat → Nat
  | 0, p => p
  | fuel + 1, p =>
    if is_skippable (getc buf p) then
      skip_all_go buf fuel (skip_whitespace buf (skip_comments buf p))
    else p

/-- The garbage-skipping loop of `next_token` (lines 88–91 of the source):
repeatedly `_skip_comments(); _skip_whitespace()` while the current
character is whitespace or `;`. -/
def skip_all (buf : List Char) (pos : Nat) : Nat :=
  skip_all_go buf (buf.length + 1) pos

/-- The scan loop of `_process_number`: extend `endpos` while the current
character exists and is a digit. -/
def scan_digits_go : List Char → Nat → Nat
  | [], e => e
  | c :: rest, e => if c.isDigit then scan_digits_go rest (e + 1) else e

/-- `Lexer._process_number`: a maximal digit run starting at `pos` (the
first character was already checked to be a digit by the dispatcher). -/
def process_number (buf : List Char) (pos : Nat) : LexResult × Nat :=
  let endpos := scan_digits_go (buf.drop (pos + 1)) (pos + 1)
  (LexResult.token ⟨TokenTypes.NUMBER, pySlice buf pos endpos, pos⟩, endpos)

/-- The scan loop of `_process_identifier`. -/
def scan_ident_go : List Char → Nat → Nat
  | [], e => e
  | c :: rest, e => if is_identifier c then scan_ident_go rest (e + 1) else e

/-- `Lexer._process_identifier`: a maximal identifier-character run. -/
def process_identifier (buf : List Char) (pos : Nat) : LexResult × Nat :=
  let endpos := scan_ident_go (buf.drop (pos + 1)) (pos + 1)
  (LexResult.token ⟨TokenTypes.IDENTIFIER, pySlice buf pos endpos, pos⟩, endpos)

/-- The scan loop of `_process_string`: starting just after the opening
quote, return the index of the first `"`, or `none` if end-of-input or a
newline comes first. -/
def scan_string_go : List Char → Nat → Option Nat
  | [], _ => none
  | c :: rest, e =>
    if c = '"' then some e
    else if c = '\n' then none
    else scan_string_go rest (e + 1)

/-- `Lexer._process_string`: on success the token text is
`buffer[pos+1:endpos]` (the delimiting quotes excluded) and the cursor
moves to `endpos + 1`; on failure `Error(self.pos)` is returned and
`self.pos` is left unchanged at the opening quote. -/
def process_string (buf : List Char) (pos : Nat) : LexResult × Nat :=
  match scan_string_go (buf.drop (pos + 1)) (pos + 1) with
  | some endpos =>
    (LexResult.token ⟨TokenTypes.STRING, pySlice buf (pos + 1) endpos, pos⟩,
      endpos + 1)
  | none => (LexResult.error ⟨pos⟩, pos)

/-- `Lexer._process_boolean`: exactly two characters. -/
def process_boolean (buf : List Char) (pos : Nat) : LexResult × Nat :=
  (LexResult.token ⟨TokenTypes.BOOLEAN, pySlice buf pos (pos + 2), pos⟩, pos + 2)

/-- `Lexer.next_token`: skip garbage, then dispatch on the current
character in the source's rule order.  The returned `Nat` is the cursor
(`self.pos`) after the call. -/
def next_token (buf : List Char) (pos : Nat) : LexResult × Nat :=
  let sp := skip_all buf pos
  match getc buf sp with
  | none => (LexResult.eof, sp)
  | some c =>
    if c = '#' ∧ (getc buf (sp + 1) = some 't' ∨ getc buf (sp + 1) = some 'f')
      then process_boolean buf sp
    else if c.isDigit then process_number buf sp
    else if c = '"' then process_string buf sp
    else if is_identifier c then process_identifier buf sp
    else if c = '(' then
      (LexResult.token ⟨TokenTypes.LPAREN, [c], sp⟩, sp + 1)
    else if c = ')' then
      (LexResult.token ⟨TokenTypes.RPAREN, [c], sp⟩, sp + 1)
    else if c = '\'' then
      (LexResult.token ⟨TokenTypes.QUOTE, [c], sp⟩, sp + 1)
    else (LexResult.error ⟨sp⟩, sp)



/-- Chained-comparison specification: `adjacentAll f x xs` holds when every
adjacent pair of `x :: xs`, taken left to right, satisfies `f`; `&&` makes
the chain false as soon as the first adjacent pair fails, mirroring the
short-circuit of the `comp_op` loop. -/
def adjacentAll (f : Int → Int → Bool) : Int → List Int → Bool
  | _, [] => true
  | x, y :: rest => f x y && adjacentAll f y rest

/-! ## Supporting lemmas about the lexer's loops -/

theorem skip_ws_go_ge : ∀ (l : List Char) (p : Nat), p ≤ skip_ws_go l p := by
  intro l
  induction l with
  | nil => intro p; simp [skip_ws_go]
  | cons c rest ih =>
    intro p
    simp only [skip_ws_go]
    split
    · exact le_trans (Nat.le_succ p) (ih (p + 1))
    · exact le_refl p

theorem skip_comment_go_ge : ∀ (l : List Char) (p : Nat), p ≤ skip_comment_go l p := by
  intro l
  induction l with
  | nil => intro p; simp [skip_comment_go]
  | cons c rest ih =>
    intro p
    simp only [skip_comment_go]
    split
    · exact le_refl p
    · exact le_trans (Nat.le_succ p) (ih (p + 1))

theorem skip_whitespace_ge (buf : List Char) (pos : Nat) :
    pos ≤ skip_whitespace buf pos := skip_ws_go_ge _ _

theorem skip_comments_ge (buf : List Char) (pos : Nat) :
    pos ≤ skip_comments buf pos := by
  unfold skip_comments
  split
  · exact skip_comment_go_ge _ _
  · exact le_refl pos

theorem skip_all_go_ge (buf : List Char) :
    ∀ (fuel p : Nat), p ≤ skip_all_go buf fuel p := by
  intro fuel
  induction fuel with
  | zero => intro p; simp [skip_all_go]
  | succ n ih =>
    intro p
    simp only [skip_all_go]
    split
    · exact le_trans (le_trans (skip_comments_ge buf p)
        (skip_whitespace_ge buf (skip_comments buf p))) (ih _)
    · exact le_refl p

theorem skip_all_ge (buf : List Char) (pos : Nat) : pos ≤ skip_all buf pos :=
  skip_all_go_ge buf _ pos

/-- A true loop guard advances the combined
`_skip_comments(); _skip_whitespace()` body by at least one position. -/
theorem skip_body_progress (buf : List Char) (p : Nat)
    (h : is_skippable (getc buf p) = true) :
    p < skip_whitespace buf (skip_comments buf p) := by
  rcases hg : getc buf p with _ | c
  · rw [hg] at h; simp [is_skippable] at h
  · rw [hg] at h
    simp only [is_skippable, Bool.or_eq_true] at h
    have hlt : p < buf.length := by
      by_contra hge
      have : buf[p]? = none := List.getElem?_eq_none (by omega)
      rw [getc] at hg; rw [this] at hg; cases hg
    have hdrop : buf.drop p = c :: buf.drop (p + 1) := by
      have := List.drop_eq_getElem_cons hlt
      rw [getc] at hg
      have hcv : buf[p] = c := by
        have := List.getElem?_eq_getElem hlt
        rw [this] at hg; exact Option.some.inj hg
      rw [hcv] at this; exact this
    rcases h with hgarb | hsemi
    · -- whitespace character: the comment skipper does nothing, the
      -- whitespace skipper advances.
      have hne : c ≠ ';' := by
        intro he; subst he; revert hgarb; decide
      have hcom : skip_comments buf p = p := by
        unfold skip_comments
        rw [if_neg]
        intro he
        have hcc : some c = some ';' := hg.symm.trans he
        exact hne (by injection hcc)
      rw [hcom]
      unfold skip_whitespace
      rw [hdrop]
      simp only [skip_ws_go, hgarb, if_pos]
      calc p < p + 1 := Nat.lt_succ_self p
        _ ≤ _ := skip_ws_go_ge _ _
    · -- a `;`: the comment skipper consumes at least the `;` itself.
      have hc : c = ';' := by simpa using hsemi
      subst hc
      have hcom : p + 1 ≤ skip_comments buf p := by
        unfold skip_comments
        rw [if_pos hg]
        rw [hdrop]
        simp only [skip_comment_go]
        rw [if_neg (by decide)]
        exact skip_comment_go_ge _ _
      calc p < p + 1 := Nat.lt_succ_self p
        _ ≤ skip_comments buf p := hcom
        _ ≤ _ := skip_whitespace_ge _ _

/-- With enough fuel, the garbage-skipping loop stops on a character that
fails its guard (or on end-of-input). -/
theorem skip_all_go_spec (buf : List Char) :
    ∀ (fuel p : Nat), buf.length < p + fuel →
      is_skippable (getc buf (skip_all_go buf fuel p)) = false := by
  intro fuel
  induction fuel with
  | zero =>
    intro p hp
    have : buf[p]? = none := List.getElem?_eq_none (by omega)
    simp [skip_all_go, getc, this, is_skippable]
  | succ n ih =>
    intro p hp
    simp only [skip_all_go]
    rcases hsk : is_skippable (getc buf p) with _ | _
    · simp [hsk]
    · rw [if_pos rfl]
      apply ih
      have := skip_body_progress buf p hsk
      omega

/-- The character `next_token` dispatches on never satisfies the skip-loop
guard. -/
theorem skip_all_spec (buf : List Char) (pos : Nat) :
    is_skippable (getc buf (skip_all buf pos)) = false :=
  skip_all_go_spec buf (buf.length + 1) pos (by omega)

/-- When the current character already fails the skip-loop guard, the loop
does not move. -/
theorem skip_all_eq_self (buf : List Char) (pos : Nat)
    (h : is_skippable (getc buf pos) = false) : skip_all buf pos = pos := by
  simp [skip_all, skip_all_go, h]

/-- The skip loop is idempotent, so `next_token` restarted at the loop's
landing position behaves identically. -/
theorem skip_all_idem (buf : List Char) (pos : Nat) :
    skip_all buf (skip_all buf pos) = skip_all buf pos :=
  skip_all_eq_self buf _ (skip_all_spec buf pos)

theorem next_token_idem (buf : List Char) (pos : Nat) :
    next_token buf (skip_all buf pos) = next_token buf pos := by
  unfold next_token
  rw [skip_all_idem]

theorem scan_digits_go_ge : ∀ (l : List Char) (e : Nat), e ≤ scan_digits_go l e := by
  intro l
  induction l with
  | nil => intro e; simp [scan_digits_go]
  | cons c rest ih =>
    intro e
    simp only [scan_digits_go]
    split
    · exact le_trans (Nat.le_succ e) (ih (e + 1))
    · exact le_refl e

theorem scan_ident_go_ge : ∀ (l : List Char) (e : Nat), e ≤ scan_ident_go l e := by
  intro l
  induction l with
  | nil => intro e; simp [scan_ident_go]
  | cons c rest ih =>
    intro e
    simp only [scan_ident_go]
    split
    · exact le_trans (Nat.le_succ e) (ih (e + 1))
    · exact le_refl e

theorem scan_ident_go_le : ∀ (l : List Char) (e : Nat),
    scan_ident_go l e ≤ e + l.length := by
  intro l
  induction l with
  | nil => intro e; simp [scan_ident_go]
  | cons c rest ih =>
    intro e
    simp only [scan_ident_go]
    split
    · calc scan_ident_go rest (e + 1) ≤ e + 1 + rest.length := ih (e + 1)
        _ = e + (c :: rest).length := by simp; omega
    · simp

theorem scan_string_go_some_ge : ∀ (l : List Char) (e c : Nat),
    scan_string_go l e = some c → e ≤ c := by
  intro l
  induction l with
  | nil => intro e c h; simp [scan_string_go] at h
  | cons ch rest ih =>
    intro e c h
    simp only [scan_string_go] at h
    split at h
    · exact (Option.some.inj h) ▸ le_refl e
    · split at h
      · cases h
      · exact le_trans (Nat.le_succ e) (ih (e + 1) c h)

/-- Master case analysis of one `next_token` call: a token strictly
advances the cursor; an error leaves the cursor at the skip-loop's landing
position, which is also the reported error position. -/
theorem next_token_cases (buf : List Char) (pos : Nat) :
    ∀ r p2, next_token buf pos = (r, p2) →
      (∀ t, r = LexResult.token t → pos < p2) ∧
      (∀ e, r = LexResult.error e →
        p2 = skip_all buf pos ∧ e.pos = skip_all buf pos) := by
  intro r p2 h
  have hge := skip_all_ge buf pos
  simp only [next_token] at h
  rcases hc : getc buf (skip_all buf pos) with _ | c <;> rw [hc] at h <;>
    dsimp only at h
  · rw [Prod.mk.injEq] at h
    obtain ⟨h1, h2⟩ := h
    constructor
    · intro t hrt; rw [← h1] at hrt; simp at hrt
    · intro e hre; rw [← h1] at hre; simp at hre
  · split_ifs at h
    · -- boolean
      simp only [process_boolean, Prod.mk.injEq] at h
      obtain ⟨h1, h2⟩ := h
      constructor
      · intro t _; omega
      · intro e hre; rw [← h1] at hre; simp at hre
    · -- number
      simp only [process_number, Prod.mk.injEq] at h
      obtain ⟨h1, h2⟩ := h
      have := scan_digits_go_ge (buf.drop (skip_all buf pos + 1))
        (skip_all buf pos + 1)
      constructor
      · intro t _; omega
      · intro e hre; rw [← h1] at hre; simp at hre
    · -- string
      simp only [process_string] at h
      rcases hscan : scan_string_go (buf.drop (skip_all buf pos + 1))
          (skip_all buf pos + 1) with _ | endpos <;> rw [hscan] at h <;>
        rw [Prod.mk.injEq] at h
      · obtain ⟨h1, h2⟩ := h
        constructor
        · intro t hrt; rw [← h1] at hrt; simp at hrt
        · intro e hre
          rw [← h1] at hre
          have he : e = ⟨skip_all buf pos⟩ := by
            cases hre; rfl
          rw [he]
          exact ⟨h2.symm, rfl⟩
      · obtain ⟨h1, h2⟩ := h
        have := scan_string_go_some_ge _ _ _ hscan
        constructor
        · intro t _; omega
        · intro e hre; rw [← h1] at hre; simp at hre
    · -- identifier
      simp only [process_identifier, Prod.mk.injEq] at h
      obtain ⟨h1, h2⟩ := h
      have := scan_ident_go_ge (buf.drop (skip_all buf pos + 1))
        (skip_all buf pos + 1)
      constructor
      · intro t _; omega
      · intro e hre; rw [← h1] at hre; simp at hre
    · -- lparen
      rw [Prod.mk.injEq] at h
      obtain ⟨h1, h2⟩ := h
      constructor
      · intro t _; omega
      · intro e hre; rw [← h1] at hre; simp at hre
    · -- rparen
      rw [Prod.mk.injEq] at h
      obtain ⟨h1, h2⟩ := h
      constructor
      · intro t _; omega
      · intro e hre; rw [← h1] at hre; simp at hre
    · -- quote
      rw [Prod.mk.injEq] at h
      obtain ⟨h1, h2⟩ := h
      constructor
      · intro t _; omega
      · intro e hre; rw [← h1] at hre; simp at hre
    · -- unknown character
      rw [Prod.mk.injEq] at h
      obtain ⟨h1, h2⟩ := h
      constructor
      · intro t hrt; rw [← h1] at hrt; simp at hrt
      · intro e hre
        rw [← h1] at hre
        have he : e = ⟨skip_all buf pos⟩ := by cases hre; rfl
        rw [he]
        exact ⟨h2.symm, rfl⟩

/-- C3 (amended): whenever `next_token` returns a `Token`, the cursor ends
strictly past the position the call started at (just past the consumed
characters); but whenever it returns a `LexError`, the cursor is left
exactly AT the reported error position — not past the error character — so
a subsequent call does not make progress and returns the very same error
again. -/
theorem c3_next_token_cursor (buf : List Char) (pos : Nat) :
    (∀ t p2, next_token buf pos = (LexResult.token t, p2) → pos < p2) ∧
    (∀ e p2, next_token buf pos = (LexResult.error e, p2) →
      p2 = e.pos ∧ pos ≤ p2 ∧ next_token buf p2 = (LexResult.error e, p2)) := by
  constructor
  · intro t p2 h
    exact (next_token_cases buf pos _ _ h).1 t rfl
  · intro e p2 h
    obtain ⟨hp2, hep⟩ := (next_token_cases buf pos _ _ h).2 e rfl
    refine ⟨hp2.trans hep.symm, ?_, ?_⟩
    · rw [hp2]; exact skip_all_ge buf pos
    · have h2 := h
      rw [hp2] at h2 ⊢
      rw [next_token_idem]
      exact h2

/-- C3 witness: a concrete two-character identifier strictly advances the
cursor. -/
theorem c3_next_token_cursor_witness :
    next_token ("ab".data) 0 =
      (LexResult.token ⟨TokenTypes.IDENTIFIER, ['a', 'b'], 0⟩, 2) ∧ (0 : Nat) < 2 :=
  ⟨by rfl, (c3_next_token_cursor ("ab".data) 0).1
    ⟨TokenTypes.IDENTIFIER, ['a', 'b'], 0⟩ 2 (by rfl)⟩

/-- C3 counterexample: on the input `","` the call returns a `LexError` at
position 0 and leaves the cursor at 0 — it is NOT positioned just after the
error character, so the cursor stays where it was and every later call
returns the same error. -/
theorem c3_counterexample :
    next_token (",".data) 0 = (LexResult.error ⟨0⟩, 0) ∧
      next_token (",".data) 0 = next_token (",".data) 0 := by
  exact ⟨by rfl, rfl⟩

/-- An identifier-capable character followed by `=` lexes as one
`Identifier` token that starts with those two characters and extends
maximally. -/
theorem ident2_spec (a : Char) (rest : List Char)
    (ha : is_identifier a = true)
    (hskip : is_skippable (some a) = false)
    (hhash : a ≠ '#') (hdig : a.isDigit = false) (hq : a ≠ '"') :
    ∃ t, next_token (a :: '=' :: rest) 0 = (LexResult.token t, t.val.length) ∧
      t.token_type = TokenTypes.IDENTIFIER ∧ t.pos = 0 ∧
      2 ≤ t.val.length ∧ t.val.take 2 = [a, '='] ∧
      ((∀ c, rest.head? = some c → is_identifier c = false) →
        t.val = [a, '=']) := by
  have h2n : 2 ≤ scan_ident_go rest 2 := scan_ident_go_ge rest 2
  have hnle : scan_ident_go rest 2 ≤ 2 + rest.length := scan_ident_go_le rest 2
  obtain ⟨m, hm⟩ : ∃ m, scan_ident_go rest 2 = m + 2 :=
    ⟨scan_ident_go rest 2 - 2, by omega⟩
  have hnt : next_token (a :: '=' :: rest) 0 =
      process_identifier (a :: '=' :: rest) 0 := by
    have h0 : skip_all (a :: '=' :: rest) 0 = 0 :=
      skip_all_eq_self _ 0 hskip
    simp only [next_token, h0, getc, List.getElem?_cons_zero]
    rw [if_neg (by rintro ⟨h1, -⟩; exact hhash h1)]
    rw [if_neg (by simp [hdig])]
    rw [if_neg hq]
    rw [if_pos ha]
  have hend : scan_ident_go ((a :: '=' :: rest).drop (0 + 1)) (0 + 1) =
      scan_ident_go rest 2 := by
    show scan_ident_go ('=' :: rest) 1 = scan_ident_go rest 2
    simp only [scan_ident_go]
    rw [if_pos (by decide)]
  have hval : pySlice (a :: '=' :: rest) 0 (scan_ident_go rest 2) =
      a :: '=' :: rest.take m := by
    rw [hm]
    simp [pySlice]
  have hlen : (pySlice (a :: '=' :: rest) 0 (scan_ident_go rest 2)).length =
      scan_ident_go rest 2 := by
    simp only [pySlice, List.drop_zero, Nat.sub_zero, List.length_take,
      List.length_cons]
    omega
  refine ⟨⟨TokenTypes.IDENTIFIER,
      pySlice (a :: '=' :: rest) 0 (scan_ident_go rest 2), 0⟩,
      ?_, rfl, rfl, ?_, ?_, ?_⟩
  · rw [hnt]
    simp only [process_identifier, hend]
    rw [hlen]
  · rw [hlen]; exact h2n
  · rw [hval]
    rfl
  · intro hb
    have hs2 : scan_ident_go rest 2 = 2 := by
      cases rest with
      | nil => rfl
      | cons c r =>
        have hc := hb c rfl
        simp only [scan_ident_go]
        rw [if_neg (by simp [hc])]
    have hm0 : m = 0 := by omega
    rw [hval, hm0]
    rfl

/-- C5 (amended): an input that begins with `>=` or `<=` yields a single
`Identifier` token — never a one-character `>` or `<` token followed by `=`
— whose text starts with those two characters; the token is exactly the
two-character identifier when the third character is absent or not
identifier-capable, and otherwise extends by maximal munch. -/
theorem c5_ge_le_identifier (rest : List Char) :
    (∃ t, next_token ('>' :: '=' :: rest) 0 = (LexResult.token t, t.val.length) ∧
      t.token_type = TokenTypes.IDENTIFIER ∧ t.pos = 0 ∧
      2 ≤ t.val.length ∧ t.val.take 2 = ['>', '='] ∧
      ((∀ c, rest.head? = some c → is_identifier c = false) →
        t.val = ['>', '='])) ∧
    (∃ t, next_token ('<' :: '=' :: rest) 0 = (LexResult.token t, t.val.length) ∧
      t.token_type = TokenTypes.IDENTIFIER ∧ t.pos = 0 ∧
      2 ≤ t.val.length ∧ t.val.take 2 = ['<', '='] ∧
      ((∀ c, rest.head? = some c → is_identifier c = false) →
        t.val = ['<', '='])) :=
  ⟨ident2_spec '>' rest (by decide) (by decide) (by decide) (by decide) (by decide),
   ident2_spec '<' rest (by decide) (by decide) (by decide) (by decide) (by decide)⟩

/-- C5 witness: the theorem applied to the two-character inputs themselves. -/
theorem c5_ge_le_identifier_witness :
    (∃ t, next_token ('>' :: '=' :: []) 0 = (LexResult.token t, t.val.length) ∧
      t.token_type = TokenTypes.IDENTIFIER ∧ t.pos = 0 ∧
      2 ≤ t.val.length ∧ t.val.take 2 = ['>', '='] ∧
      ((∀ c, ([] : List Char).head? = some c → is_identifier c = false) →
        t.val = ['>', '='])) ∧
    (∃ t, next_token ('<' :: '=' :: []) 0 = (LexResult.token t, t.val.length) ∧
      t.token_type = TokenTypes.IDENTIFIER ∧ t.pos = 0 ∧
      2 ≤ t.val.length ∧ t.val.take 2 = ['<', '='] ∧
      ((∀ c, ([] : List Char).head? = some c → is_identifier c = false) →
        t.val = ['<', '='])) :=
  c5_ge_le_identifier []

/-- C5 counterexample: the input `">=1"` begins with `>=` but tokenizes to a
single THREE-character identifier `>=1`, not a two-character one, because
the digit `1` is identifier-capable and maximal munch keeps consuming. -/
theorem c5_counterexample :
    next_token ('>' :: '=' :: '1' :: []) 0 =
      (LexResult.token ⟨TokenTypes.IDENTIFIER, ['>', '=', '1'], 0⟩, 3) ∧
    (['>', '=', '1'] : List Char).length ≠ 2 :=
  ⟨by rfl, by decide⟩

/-- Success characterization of the string scan: the returned index is the
first `"` at or after the start, with no newline in between. -/
theorem scan_string_go_some_spec : ∀ (l : List Char) (e c : Nat),
    scan_string_go l e = some c →
      e ≤ c ∧ c - e < l.length ∧ l[c - e]? = some '"' ∧
      ∀ j < c - e, ∃ ch, l[j]? = some ch ∧ ch ≠ '"' ∧ ch ≠ '\n' := by
  intro l
  induction l with
  | nil => intro e c h; simp [scan_string_go] at h
  | cons ch0 rest ih =>
    intro e c h
    simp only [scan_string_go] at h
    by_cases h1 : ch0 = '"'
    · rw [if_pos h1] at h
      have hc : c = e := (Option.some.inj h).symm
      subst hc
      refine ⟨le_refl _, by simp, ?_, ?_⟩
      · simp [h1]
      · intro j hj; omega
    · rw [if_neg h1] at h
      by_cases h2 : ch0 = '\n'
      · rw [if_pos h2] at h; cases h
      · rw [if_neg h2] at h
        obtain ⟨hle, hlt, hqe, hall⟩ := ih (e + 1) c h
        have hce : c - e = (c - (e + 1)) + 1 := by omega
        refine ⟨by omega, ?_, ?_, ?_⟩
        · simp only [List.length_cons]; omega
        · rw [hce]; simpa using hqe
        · intro j hj
          cases j with
          | zero => exact ⟨ch0, by simp, h1, h2⟩
          | succ k =>
            have hk : k < c - (e + 1) := by omega
            obtain ⟨ch2, hch, hq2, hn2⟩ := hall k hk
            exact ⟨ch2, by simpa using hch, hq2, hn2⟩

/-- Failure characterization of the string scan: some position `k` (either
the end of the remaining input or a newline) is reached with no `"` and no
newline strictly before it. -/
theorem scan_string_go_none_spec : ∀ (l : List Char) (e : Nat),
    scan_string_go l e = none →
      ∃ k, k ≤ l.length ∧ (k = l.length ∨ l[k]? = some '\n') ∧
        ∀ j < k, ∃ ch, l[j]? = some ch ∧ ch ≠ '"' ∧ ch ≠ '\n' := by
  intro l
  induction l with
  | nil =>
    intro e _
    exact ⟨0, by simp, Or.inl rfl, by intro j hj; omega⟩
  | cons ch0 rest ih =>
    intro e h
    simp only [scan_string_go] at h
    by_cases h1 : ch0 = '"'
    · rw [if_pos h1] at h; cases h
    · rw [if_neg h1] at h
      by_cases h2 : ch0 = '\n'
      · exact ⟨0, by simp, Or.inr (by simp [h2]), by intro j hj; omega⟩
      · rw [if_neg h2] at h
        obtain ⟨k, hk, hd, hall⟩ := ih (e + 1) h
        refine ⟨k + 1, by simp; omega, ?_, ?_⟩
        · rcases hd with hkl | hnl
          · left; simp [hkl]
          · right; simpa using hnl
        · intro j hj
          cases j with
          | zero => exact ⟨ch0, by simp, h1, h2⟩
          | succ k2 =>
            have hk2 : k2 < k := by omega
            obtain ⟨ch2, hch, hq2, hn2⟩ := hall k2 hk2
            exact ⟨ch2, by simpa using hch, hq2, hn2⟩

/-- C7 (amended): when the current character is `"`, tokenizing consumes
characters up to the next `"` on the same line — NO escape processing is
performed, so a quote preceded by a backslash also terminates the string —
producing a `String` token whose text excludes the two delimiting quotes;
if end-of-input or a newline is reached before a closing quote, the call
returns a `LexError` whose position is that of the opening quote (and the
cursor stays there). -/
theorem c7_string_lexing (buf : List Char) (pos : Nat)
    (hq : getc buf pos = some '"') :
    (∀ t p2, next_token buf pos = (LexResult.token t, p2) →
      t.token_type = TokenTypes.STRING ∧ t.pos = pos ∧
      t.val = pySlice buf (pos + 1) (pos + 1 + t.val.length) ∧
      buf[pos + 1 + t.val.length]? = some '"' ∧
      (∀ c ∈ t.val, c ≠ '"' ∧ c ≠ '\n') ∧
      p2 = pos + 1 + t.val.length + 1) ∧
    (∀ e p2, next_token buf pos = (LexResult.error e, p2) →
      e.pos = pos ∧ p2 = pos ∧
      ∃ k, (buf[pos + 1 + k]? = none ∨ buf[pos + 1 + k]? = some '\n') ∧
        ∀ j < k, ∃ ch, buf[pos + 1 + j]? = some ch ∧ ch ≠ '"' ∧ ch ≠ '\n') := by
  have hskip : is_skippable (getc buf pos) = false := by rw [hq]; rfl
  have h0 := skip_all_eq_self buf pos hskip
  have hnt : next_token buf pos = process_string buf pos := by
    simp only [next_token, h0, hq]
    simp
  have hdrop : ∀ k, (buf.drop (pos + 1))[k]? = buf[pos + 1 + k]? :=
    fun k => List.getElem?_drop buf (pos + 1) k
  constructor
  · intro t p2 h
    rw [hnt] at h
    unfold process_string at h
    rcases hscan : scan_string_go (buf.drop (pos + 1)) (pos + 1)
      with _ | endpos <;> rw [hscan] at h
    · simp at h
    · rw [Prod.mk.injEq] at h
      obtain ⟨h1, h2⟩ := h
      obtain ⟨hle, hlt, hqe, hall⟩ := scan_string_go_some_spec _ _ _ hscan
      rw [List.length_drop] at hlt
      injection h1 with ht
      subst ht
      have hvl : (pySlice buf (pos + 1) endpos).length = endpos - (pos + 1) := by
        simp only [pySlice, List.length_take, List.length_drop]
        omega
      have hpe : pos + 1 + (pySlice buf (pos + 1) endpos).length = endpos := by
        rw [hvl]; omega
      refine ⟨rfl, rfl, ?_, ?_, ?_, ?_⟩
      · show pySlice buf (pos + 1) endpos = _
        rw [hpe]
      · show buf[pos + 1 + (pySlice buf (pos + 1) endpos).length]? = some '"'
        rw [hpe]
        have he2 : pos + 1 + (endpos - (pos + 1)) = endpos := by omega
        rw [hdrop] at hqe
        rw [he2] at hqe
        exact hqe
      · intro c hm
        rw [List.mem_iff_getElem?] at hm
        obtain ⟨i, hi⟩ := hm
        have hilen : i < (pySlice buf (pos + 1) endpos).length :=
          (List.getElem?_eq_some.mp hi).1
        rw [hvl] at hilen
        have hi2 : (buf.drop (pos + 1))[i]? = some c := by
          have : (pySlice buf (pos + 1) endpos)[i]? =
              (buf.drop (pos + 1))[i]? := by
            simp only [pySlice]
            rw [List.getElem?_take, if_pos (by omega)]
          rw [← this]; exact hi
        obtain ⟨ch2, hch, hq2, hn2⟩ := hall i hilen
        have : c = ch2 := by
          rw [hi2] at hch; exact Option.some.inj hch
        rw [this]; exact ⟨hq2, hn2⟩
      · show p2 = pos + 1 + (pySlice buf (pos + 1) endpos).length + 1
        rw [hpe]; omega
  · intro e p2 h
    rw [hnt] at h
    unfold process_string at h
    rcases hscan : scan_string_go (buf.drop (pos + 1)) (pos + 1)
      with _ | endpos <;> rw [hscan] at h
    · rw [Prod.mk.injEq] at h
      obtain ⟨h1, h2⟩ := h
      injection h1 with he
      obtain ⟨k, hk, hd, hall⟩ := scan_string_go_none_spec _ _ hscan
      refine ⟨by rw [← he], h2.symm, k, ?_, ?_⟩
      · rcases hd with hkl | hnl
        · left
          apply List.getElem?_eq_none
          rw [List.length_drop] at hkl
          omega
        · right; rw [← hdrop k]; exact hnl
      · intro j hj
        obtain ⟨ch, hch, hq2, hn2⟩ := hall j hj
        exact ⟨ch, by rw [← hdrop j]; exact hch, hq2, hn2⟩
    · simp at h

/-- C7 witness: the theorem applied to the concrete buffer `"ab"`. -/
theorem c7_string_lexing_witness :
    (∀ t p2, next_token ('"' :: 'a' :: 'b' :: '"' :: []) 0 =
        (LexResult.token t, p2) →
      t.token_type = TokenTypes.STRING ∧ t.pos = 0 ∧
      t.val = pySlice ('"' :: 'a' :: 'b' :: '"' :: []) (0 + 1)
        (0 + 1 + t.val.length) ∧
      ('"' :: 'a' :: 'b' :: '"' :: [])[0 + 1 + t.val.length]? = some '"' ∧
      (∀ c ∈ t.val, c ≠ '"' ∧ c ≠ '\n') ∧
      p2 = 0 + 1 + t.val.length + 1) ∧
    (∀ e p2, next_token ('"' :: 'a' :: 'b' :: '"' :: []) 0 =
        (LexResult.error e, p2) →
      e.pos = 0 ∧ p2 = 0 ∧
      ∃ k, (('"' :: 'a' :: 'b' :: '"' :: [])[0 + 1 + k]? = none ∨
          ('"' :: 'a' :: 'b' :: '"' :: [])[0 + 1 + k]? = some '\n') ∧
        ∀ j < k, ∃ ch, ('"' :: 'a' :: 'b' :: '"' :: [])[0 + 1 + j]? = some ch ∧
          ch ≠ '"' ∧ ch ≠ '\n') :=
  c7_string_lexing ('"' :: 'a' :: 'b' :: '"' :: []) 0 (by rfl)

/-- C7 counterexample: in the buffer `"a\"b"` the backslash-escaped quote
DOES terminate the string — the token text is `a\` (ending at the escaped
quote), not the `a\"b` that escape-aware lexing would produce. -/
theorem c7_counterexample :
    next_token ('"' :: 'a' :: '\\' :: '"' :: 'b' :: '"' :: []) 0 =
      (LexResult.token ⟨TokenTypes.STRING, ['a', '\\'], 0⟩, 4) ∧
    (['a', '\\'] : List Char) ≠ ['a', '\\', '"', 'b'] :=
  ⟨by rfl, by decide⟩

/-! ## Builtin-procedure claims -/

/-- Definitional unfolding of `arith_op` at two or more arguments. -/
theorem arith_op_cons2 (f : Dyn → Dyn → Except PyError Dyn)
    (u : Dyn → Except PyError Dyn) (a b : Value) (rest : List Value) :
    arith_op f u (a :: b :: rest) =
      (check_type isNumber (a :: b :: rest) "Expected numbers only" >>=
        fun _ => ((a :: b :: rest).mapM getValue >>= fun vals =>
          match vals with
          | [] => Except.error PyError.typeError
          | v :: r => (r.foldlM f v >>= fun x => Except.ok (Value.number x)))) :=
  rfl

/-- A non-`Number` among two or more arguments trips the `check_type`
guard of `arith_op`. -/
theorem arith_op_nonnumber (f : Dyn → Dyn → Except PyError Dyn)
    (u : Dyn → Except PyError Dyn) (a b : Value) (rest : List Value)
    (hex : ∃ x ∈ a :: b :: rest, isNumber x = false) :
    arith_op f u (a :: b :: rest) =
      Except.error (PyError.procedureError "Expected numbers only") := by
  have hct : check_type isNumber (a :: b :: rest) "Expected numbers only" =
      Except.error (PyError.procedureError "Expected numbers only") := by
    unfold check_type
    rw [if_pos]
    rw [List.any_eq_true]
    obtain ⟨x, hx, hnx⟩ := hex
    exact ⟨x, hx, by simp [hnx]⟩
  rw [arith_op_cons2, hct]
  rfl

/-- C1 (amended): only the branch of `+`, `-`, `*` for two or more
arguments checks that all operands are `Number` (raising the
`ProcedureError` "Expected numbers only" on a violation); the unary branch
performs no type check at all — unary `*` silently wraps the argument's
`.value` payload in a fresh `Number` — and the comparisons and
`quotient`/`modulo` contain no `Number` check anywhere (their failures, if
any, are raw Python errors, and several non-`Number` inputs silently
produce results). -/
theorem c1_arith_type_check :
    (∀ args : List Value, 2 ≤ args.length →
      (∃ x ∈ args, isNumber x = false) →
      builtin_add args =
        Except.error (PyError.procedureError "Expected numbers only") ∧
      builtin_sub args =
        Except.error (PyError.procedureError "Expected numbers only") ∧
      builtin_mul args =
        Except.error (PyError.procedureError "Expected numbers only")) ∧
    (∀ v d, getValue v = Except.ok d →
      builtin_mul [v] = Except.ok (Value.number d)) := by
  constructor
  · intro args hlen hex
    match args with
    | [] => simp at hlen
    | [a] => simp at hlen
    | a :: b :: rest =>
      exact ⟨arith_op_nonnumber _ _ a b rest hex,
        arith_op_nonnumber _ _ a b rest hex,
        arith_op_nonnumber _ _ a b rest hex⟩
  · intro v d h
    show arith_op pyMul (fun x => Except.ok x) [v] = _
    show (getValue v >>= fun x =>
      ((fun x => Except.ok x) x >>= fun u => Except.ok (Value.number u))) = _
    rw [h]
    rfl

/-- C1 witness: `(+ 1 "x")` raises the `ProcedureError`, and unary `*` on
a string silently succeeds. -/
theorem c1_arith_type_check_witness :
    builtin_add [Value.number (Dyn.int 1), Value.strv "x"] =
      Except.error (PyError.procedureError "Expected numbers only") ∧
    builtin_mul [Value.strv "abc"] =
      Except.ok (Value.number (Dyn.str "abc")) :=
  ⟨(c1_arith_type_check.1 [Value.number (Dyn.int 1), Value.strv "x"]
      (by decide) ⟨Value.strv "x", by decide⟩).1,
   c1_arith_type_check.2 (Value.strv "abc") (Dyn.str "abc") (by rfl)⟩

/-- C1 counterexample: a comparison applied to a lone non-`Number` returns
`Boolean(True)` with no error; two `Boolean`s compare numerically
(`False < True` coerces to `0 < 1`) and report `True`; unary
`+` on `Boolean(True)` silently coerces to `Number(1)`; unary `*` wraps a
string in a `Number`; `quotient`/`modulo` on strings raise a raw Python
`TypeError`, not the component's `ProcedureError`. -/
theorem c1_counterexample :
    builtin_eq_cmp [Value.strv "a"] = Except.ok (Value.boolean true) ∧
    builtin_lt_cmp [Value.boolean false, Value.boolean true] =
      Except.ok (Value.boolean true) ∧
    builtin_add [Value.boolean true] = Except.ok (Value.number (Dyn.int 1)) ∧
    builtin_mul [Value.strv "abc"] =
      Except.ok (Value.number (Dyn.str "abc")) ∧
    builtin_quotient (Value.strv "a") (Value.strv "b") =
      Except.error PyError.typeError ∧
    builtin_mod (Value.strv "a") (Value.strv "b") =
      Except.error PyError.typeError :=
  ⟨by rfl, by rfl, by rfl, by rfl, by rfl, by rfl⟩

/-- C2 (amended): `car`/`cdr` raise the `ProcedureError` "Expected pair or
list." on a non-`Pair`, and raise "attempted car/cdr on empty list" when
the pair's `first` slot holds the Python `None` placeholder; but when the
`first` slot holds the `Nil` VALUE no error is raised — `car` silently
returns the `Nil` marker itself and `cdr` returns the second slot. -/
theorem c2_car_cdr :
    (∀ p, isPair p = false →
      builtin_car p =
        Except.error (PyError.procedureError "Expected pair or list.") ∧
      builtin_cdr p =
        Except.error (PyError.procedureError "Expected pair or list.")) ∧
    (∀ s, builtin_car (Value.pair Value.pynone s) =
        Except.error (PyError.procedureError "attempted car on empty list") ∧
      builtin_cdr (Value.pair Value.pynone s) =
        Except.error (PyError.procedureError "attempted cdr on empty list")) ∧
    (∀ f s, f ≠ Value.pynone →
      builtin_car (Value.pair f s) = Except.ok f ∧
      builtin_cdr (Value.pair f s) = Except.ok s) := by
  refine ⟨?_, ?_, ?_⟩
  · intro p hp
    have hct : check_type isPair [p] "Expected pair or list." =
        Except.error (PyError.procedureError "Expected pair or list.") := by
      unfold check_type
      rw [if_pos (by simp [hp])]
    constructor
    · unfold builtin_car
      rw [hct]
      rfl
    · unfold builtin_cdr
      rw [hct]
      rfl
  · intro s
    exact ⟨rfl, rfl⟩
  · intro f s hf
    refine ⟨?_, ?_⟩ <;> (cases f <;> first | rfl | exact absurd rfl hf)

/-- C2 witness: `car`/`cdr` of a number raise the type error; `car`/`cdr`
of an ordinary pair return the slots. -/
theorem c2_car_cdr_witness :
    (builtin_car (Value.number (Dyn.int 7)) =
        Except.error (PyError.procedureError "Expected pair or list.") ∧
      builtin_cdr (Value.number (Dyn.int 7)) =
        Except.error (PyError.procedureError "Expected pair or list.")) ∧
    (builtin_car (Value.pair (Value.number (Dyn.int 1)) Value.nil) =
        Except.ok (Value.number (Dyn.int 1)) ∧
      builtin_cdr (Value.pair (Value.number (Dyn.int 1)) Value.nil) =
        Except.ok Value.nil) :=
  ⟨c2_car_cdr.1 (Value.number (Dyn.int 7)) (by decide),
   c2_car_cdr.2.2 (Value.number (Dyn.int 1)) Value.nil (by decide)⟩

/-- C2 counterexample: a pair whose `first` slot holds the `Nil` marker
does NOT make `car`/`cdr` raise — `car` silently returns the empty-list
marker read through the slot, contradicting the claim. -/
theorem c2_counterexample :
    builtin_car (Value.pair Value.nil Value.nil) = Except.ok Value.nil ∧
    builtin_cdr (Value.pair Value.nil (Value.number (Dyn.int 5))) =
      Except.ok (Value.number (Dyn.int 5)) :=
  ⟨rfl, rfl⟩

/-- C4 (confirmed): `Procedure.apply` on a fixed-arity procedure raises the
arity `ProcedureError` — whose message interpolates the procedure name, the
expected count and the received count — whenever the argument count differs
from the declared arity, without invoking the body; and invokes the body on
exactly the given arguments when the count matches. -/
theorem c4_apply_arity (name : String) (n : Nat)
    (body : List Value → Except PyError Value) (args : List Value) :
    (args.length ≠ n →
      Procedure.apply ⟨name, some n, body⟩ args =
        Except.error (PyError.procedureError (arityMsg name n args.length))) ∧
    (args.length = n →
      Procedure.apply ⟨name, some n, body⟩ args = body args) := by
  constructor
  · intro h
    simp only [Procedure.apply]
    rw [if_pos (by omega)]
  · intro h
    simp only [Procedure.apply]
    rw [if_neg (by omega)]

/-- C4 witness: the registered fixed-arity-2 `quotient` with 1 and 3
arguments raises the arity error naming 2 and the received count; with 2
arguments the body runs; and the message text carries name and counts. -/
theorem c4_apply_arity_witness :
    Procedure.apply ⟨"quotient", some 2, listify2 builtin_quotient⟩
        [Value.number (Dyn.int 1)] =
      Except.error (PyError.procedureError (arityMsg "quotient" 2 1)) ∧
    Procedure.apply ⟨"quotient", some 2, listify2 builtin_quotient⟩
        [Value.number (Dyn.int 1), Value.number (Dyn.int 2),
          Value.number (Dyn.int 3)] =
      Except.error (PyError.procedureError (arityMsg "quotient" 2 3)) ∧
    Procedure.apply ⟨"quotient", some 2, listify2 builtin_quotient⟩
        [Value.number (Dyn.int 7), Value.number (Dyn.int 2)] =
      Except.ok (Value.number (Dyn.int 3)) ∧
    arityMsg "quotient" 2 1 =
      "Procedure \"quotient\" expected 2 argument(s). Got 1 instead" := by
  refine ⟨(c4_apply_arity "quotient" 2 (listify2 builtin_quotient)
      [Value.number (Dyn.int 1)]).1 (by decide),
    (c4_apply_arity "quotient" 2 (listify2 builtin_quotient)
      [Value.number (Dyn.int 1), Value.number (Dyn.int 2),
        Value.number (Dyn.int 3)]).1 (by decide), ?_, by rfl⟩
  rw [(c4_apply_arity "quotient" 2 (listify2 builtin_quotient)
    [Value.number (Dyn.int 7), Value.number (Dyn.int 2)]).2 (by decide)]
  rfl

/-- The `comp_op` loop on `Number` arguments computes the adjacent-pairwise
chain of the underlying integer comparison. -/
theorem comp_loop_numbers (dop : Dyn → Dyn → Except PyError Bool)
    (iop : Int → Int → Bool)
    (hop : ∀ a b : Int, dop (Dyn.int a) (Dyn.int b) = Except.ok (iop a b)) :
    ∀ (x : Int) (xs : List Int),
      comp_loop dop (Value.number (Dyn.int x))
        (xs.map (fun i => Value.number (Dyn.int i))) =
      Except.ok (Value.boolean (adjacentAll iop x xs)) := by
  intro x xs
  induction xs generalizing x with
  | nil => rfl
  | cons y rest ih =>
    show (dop (Dyn.int x) (Dyn.int y) >>= fun b =>
        if b then comp_loop dop (Value.number (Dyn.int y))
          (rest.map (fun i => Value.number (Dyn.int i)))
        else Except.ok (Value.boolean false)) =
      Except.ok (Value.boolean (adjacentAll iop x (y :: rest)))
    rw [hop x y]
    show (if iop x y then comp_loop dop (Value.number (Dyn.int y))
        (rest.map (fun i => Value.number (Dyn.int i)))
      else Except.ok (Value.boolean false)) = _
    cases h : iop x y
    · simp [adjacentAll, h]
    · simp [adjacentAll, h, ih y]

/-- C6 (confirmed): each comparison builtin on one or more `Number`
arguments returns `Boolean(true)` exactly when every adjacent pair, taken
left to right, satisfies the operator (`adjacentAll`, whose `&&` is false
as soon as the first adjacent pair fails); a single argument yields
`Boolean(true)`. -/
theorem c6_comparison_chain (x : Int) (xs : List Int) :
    builtin_eq_cmp ((x :: xs).map (fun i => Value.number (Dyn.int i))) =
      Except.ok (Value.boolean (adjacentAll (fun a b => a == b) x xs)) ∧
    builtin_gt_cmp ((x :: xs).map (fun i => Value.number (Dyn.int i))) =
      Except.ok (Value.boolean (adjacentAll (fun a b => decide (b < a)) x xs)) ∧
    builtin_lt_cmp ((x :: xs).map (fun i => Value.number (Dyn.int i))) =
      Except.ok (Value.boolean (adjacentAll (fun a b => decide (a < b)) x xs)) ∧
    builtin_ge_cmp ((x :: xs).map (fun i => Value.number (Dyn.int i))) =
      Except.ok (Value.boolean (adjacentAll (fun a b => decide (b ≤ a)) x xs)) ∧
    builtin_le_cmp ((x :: xs).map (fun i => Value.number (Dyn.int i))) =
      Except.ok (Value.boolean (adjacentAll (fun a b => decide (a ≤ b)) x xs)) :=
  ⟨comp_loop_numbers pyEq _ (fun _ _ => rfl) x xs,
   comp_loop_numbers pyGt _ (fun _ _ => rfl) x xs,
   comp_loop_numbers pyLt _ (fun _ _ => rfl) x xs,
   comp_loop_numbers pyGe _ (fun _ _ => rfl) x xs,
   comp_loop_numbers pyLe _ (fun _ _ => rfl) x xs⟩

/-- C6 witness: `<(1, 2, 3)` is true and `<(1, 3, 2)` is false, and a
single argument is trivially true. -/
theorem c6_comparison_chain_witness :
    builtin_lt_cmp ((1 :: [3, 2]).map (fun i => Value.number (Dyn.int i))) =
      Except.ok (Value.boolean
        (adjacentAll (fun a b => decide (a < b)) 1 [3, 2])) ∧
    builtin_lt_cmp ((1 :: []).map (fun i => Value.number (Dyn.int i))) =
      Except.ok (Value.boolean
        (adjacentAll (fun a b => decide (a < b)) 1 [])) :=
  ⟨(c6_comparison_chain 1 [3, 2]).2.2.1, (c6_comparison_chain 1 []).2.2.1⟩

/-- `eqBool` tests exactly equality with the given `Boolean`. -/
theorem eqBool_iff (v : Value) (b : Bool) :
    eqBool v b = true ↔ v = Value.boolean b := by
  cases v <;> simp [eqBool]

/-- A list with no element `== Boolean(b)` makes the search of
`builtin_and`/`builtin_or` come up empty. -/
theorem find_eqBool_none (args : List Value) (b : Bool)
    (h : ∀ v ∈ args, v ≠ Value.boolean b) :
    args.find? (fun el => eqBool el b) = none :=
  List.find?_eq_none.mpr (fun x hx hpx => h x hx ((eqBool_iff x b).mp hpx))

/-- C8 (confirmed): `and` returns the first argument equal to
`Boolean(false)` if one exists, otherwise its last argument, and
`Boolean(true)` on no arguments; dually `or` returns the first argument
equal to `Boolean(true)` if one exists, otherwise its last argument, and
`Boolean(false)` on no arguments. -/
theorem c8_and_or :
    builtin_and [] = Value.boolean true ∧
    builtin_or [] = Value.boolean false ∧
    (∀ l1 l2 : List Value, (∀ v ∈ l1, v ≠ Value.boolean false) →
      builtin_and (l1 ++ Value.boolean false :: l2) = Value.boolean false) ∧
    (∀ args : List Value, (∀ v ∈ args, v ≠ Value.boolean false) →
      ∀ lst, args.getLast? = some lst → builtin_and args = lst) ∧
    (∀ l1 l2 : List Value, (∀ v ∈ l1, v ≠ Value.boolean true) →
      builtin_or (l1 ++ Value.boolean true :: l2) = Value.boolean true) ∧
    (∀ args : List Value, (∀ v ∈ args, v ≠ Value.boolean true) →
      ∀ lst, args.getLast? = some lst → builtin_or args = lst) := by
  refine ⟨rfl, rfl, ?_, ?_, ?_, ?_⟩
  · intro l1 l2 h
    have hf : List.find? (fun el => eqBool el false)
        (Value.boolean false :: l2) = some (Value.boolean false) :=
      List.find?_cons_of_pos l2 (by rfl)
    simp only [builtin_and, List.find?_append, find_eqBool_none l1 false h,
      hf, Option.none_or]
  · intro args h lst hlast
    simp only [builtin_and, find_eqBool_none args false h, hlast]
  · intro l1 l2 h
    have hf : List.find? (fun el => eqBool el true)
        (Value.boolean true :: l2) = some (Value.boolean true) :=
      List.find?_cons_of_pos l2 (by rfl)
    simp only [builtin_or, List.find?_append, find_eqBool_none l1 true h,
      hf, Option.none_or]
  · intro args h lst hlast
    simp only [builtin_or, find_eqBool_none args true h, hlast]

/-- C8 witness: `or(false, false, 3)` returns the value 3 and
`and(true, false, true)` returns `false`. -/
theorem c8_and_or_witness :
    builtin_or [Value.boolean false, Value.boolean false,
      Value.number (Dyn.int 3)] = Value.number (Dyn.int 3) ∧
    builtin_and [Value.boolean true, Value.boolean false,
      Value.boolean true] = Value.boolean false :=
  ⟨c8_and_or.2.2.2.2.2 [Value.boolean false, Value.boolean false,
      Value.number (Dyn.int 3)] (by decide) (Value.number (Dyn.int 3)) rfl,
   c8_and_or.2.2.1 [Value.boolean true] [Value.boolean true] (by decide)⟩

/-- C9 (confirmed): every comparison builtin is registered variadic
(`*args` reflects as the `'positional'` marker), so `Procedure.apply`
passes every argument count straight to the body; with zero arguments the
body's `next(it)` raises a raw `StopIteration`, not the component's
`ProcedureError` kind. -/
theorem c9_comp_variadic :
    (∀ args, Procedure.apply eq_proc args = builtin_eq_cmp args) ∧
    (∀ args, Procedure.apply gt_proc args = builtin_gt_cmp args) ∧
    (∀ args, Procedure.apply lt_proc args = builtin_lt_cmp args) ∧
    (∀ args, Procedure.apply ge_proc args = builtin_ge_cmp args) ∧
    (∀ args, Procedure.apply le_proc args = builtin_le_cmp args) ∧
    Procedure.apply eq_proc [] = Except.error PyError.stopIteration ∧
    Procedure.apply gt_proc [] = Except.error PyError.stopIteration ∧
    Procedure.apply lt_proc [] = Except.error PyError.stopIteration ∧
    Procedure.apply ge_proc [] = Except.error PyError.stopIteration ∧
    Procedure.apply le_proc [] = Except.error PyError.stopIteration ∧
    (∀ msg, Except.error PyError.stopIteration ≠
      (Except.error (PyError.procedureError msg) : Except PyError Value)) :=
  ⟨fun _ => rfl, fun _ => rfl, fun _ => rfl, fun _ => rfl, fun _ => rfl,
   rfl, rfl, rfl, rfl, rfl, fun msg h => by injection h with h2; cases h2⟩

/-- No step of the `quotient`/`modulo` bodies can produce the component's
`ProcedureError`. -/
theorem except_bind_ne {α β : Type} (e : Except PyError α)
    (f : α → Except PyError β) (k : PyError)
    (h1 : e ≠ Except.error k) (h2 : ∀ a, f a ≠ Except.error k) :
    (e >>= f) ≠ Except.error k := by
  cases e with
  | error err =>
    intro hc
    have herr : err = k := by
      have hc2 : (Except.error err : Except PyError β) = Except.error k := hc
      injection hc2
    exact h1 (by rw [herr])
  | ok a => exact h2 a

theorem getValue_ne_proc (v : Value) (msg : String) :
    getValue v ≠ Except.error (PyError.procedureError msg) := by
  cases v <;> simp [getValue]

theorem pyFloorDiv_ne_proc (x y : Dyn) (msg : String) :
    pyFloorDiv x y ≠ Except.error (PyError.procedureError msg) := by
  cases x <;> cases y <;> simp only [pyFloorDiv, numVal] <;>
    (try split_ifs) <;> simp

theorem pyMod_ne_proc (x y : Dyn) (msg : String) :
    pyMod x y ≠ Except.error (PyError.procedureError msg) := by
  cases x <;> cases y <;> simp only [pyMod, numVal] <;>
    (try split_ifs) <;> simp

/-- C10 (confirmed): `builtin_quotient` and `builtin_mod` have no guard of
their own — on two `Number` arguments with zero divisor they raise a raw
`ZeroDivisionError`, and no input whatsoever makes them raise the
component's `ProcedureError`. -/
theorem c10_quotient_mod_unguarded :
    (∀ x : Int, builtin_quotient (Value.number (Dyn.int x))
      (Value.number (Dyn.int 0)) = Except.error PyError.zeroDivisionError) ∧
    (∀ x : Int, builtin_mod (Value.number (Dyn.int x))
      (Value.number (Dyn.int 0)) = Except.error PyError.zeroDivisionError) ∧
    (∀ a b msg, builtin_quotient a b ≠
      Except.error (PyError.procedureError msg)) ∧
    (∀ a b msg, builtin_mod a b ≠
      Except.error (PyError.procedureError msg)) := by
  refine ⟨fun x => rfl, fun x => rfl, ?_, ?_⟩
  · intro a b msg
    show (getValue a >>= fun x => (getValue b >>= fun y =>
      (pyFloorDiv x y >>= fun r => Except.ok (Value.number r)))) ≠ _
    exact except_bind_ne _ _ _ (getValue_ne_proc a msg) (fun x =>
      except_bind_ne _ _ _ (getValue_ne_proc b msg) (fun y =>
        except_bind_ne _ _ _ (pyFloorDiv_ne_proc x y msg) (fun r => by simp)))
  · intro a b msg
    show (getValue a >>= fun x => (getValue b >>= fun y =>
      (pyMod x y >>= fun r => Except.ok (Value.number r)))) ≠ _
    exact except_bind_ne _ _ _ (getValue_ne_proc a msg) (fun x =>
      except_bind_ne _ _ _ (getValue_ne_proc b msg) (fun y =>
        except_bind_ne _ _ _ (pyMod_ne_proc x y msg) (fun r => by simp)))

/-- C10 witness: `(quotient 7 0)` and `(modulo 7 0)` raise the raw
`ZeroDivisionError`. -/
theorem c10_quotient_mod_unguarded_witness :
    builtin_quotient (Value.number (Dyn.int 7)) (Value.number (Dyn.int 0)) =
      Except.error PyError.zeroDivisionError ∧
    builtin_mod (Value.number (Dyn.int 7)) (Value.number (Dyn.int 0)) =
      Except.error PyError.zeroDivisionError :=
  ⟨c10_quotient_mod_unguarded.1 7, c10_quotient_mod_unguarded.2.1 7⟩

/-- C9 witness: the variadic dispatch and the zero-argument `StopIteration`
at a concrete instance. -/
theorem c9_comp_variadic_witness :
    Procedure.apply lt_proc [Value.number (Dyn.int 1)] =
      builtin_lt_cmp [Value.number (Dyn.int 1)] ∧
    Procedure.apply eq_proc [] = Except.error PyError.stopIteration :=
  ⟨c9_comp_variadic.2.2.1 [Value.number (Dyn.int 1)],
   c9_comp_variadic.2.2.2.2.2.1⟩
